import Mathlib

/-!
Verification of the orchestration and extraction core of `gakumas-screenshot`.

This file shallowly embeds, from the Rust sources:
  * `src/ocr/extract.rs` — score-pattern matching, `parse_score`,
    `extract_single_stage`, and the three-pass `extract_scores`;
  * `src/automation/state.rs` — the automation state machine and `step`;
  * `src/automation/detection.rs` — brightness and histogram computation
    and the Bhattacharyya histogram similarity;
  * `src/automation/ocr_worker.rs` + `src/automation/queue.rs` — the OCR
    worker loop draining a closed FIFO channel.

Machine `u32` parsing is modelled as `Nat` with an explicit bound check at
`2^32 - 1`; `f32`/`f64` arithmetic is modelled exactly over `ℚ` (and over `ℝ`
for the square root in the similarity coefficient); Rust `Result` is modelled
as `Except String`.
-/

namespace Gakumas

/-- Decidable equality for `Except`, so results of the embedded fallible
functions can be evaluated by `decide`. -/
instance {ε α : Type} [DecidableEq ε] [DecidableEq α] : DecidableEq (Except ε α)
  | .ok a, .ok b =>
    if h : a = b then .isTrue (by rw [h])
    else .isFalse (by intro hc; cases hc; exact h rfl)
  | .ok _, .error _ => .isFalse (by intro hc; cases hc)
  | .error _, .ok _ => .isFalse (by intro hc; cases hc)
  | .error e, .error f =>
    if h : e = f then .isTrue (by rw [h])
    else .isFalse (by intro hc; cases hc; exact h rfl)

/-! ## OCR data model (src/ocr/engine.rs)

Words and lines carry texts (as character lists) and confidence values.
Word/line confidences are `f32` in the source, modelled as `ℚ`. -/

structure OcrWord where
  text : List Char
  confidence : ℚ
deriving DecidableEq

structure OcrLine where
  text : List Char
  words : List OcrWord
  confidence : ℚ
deriving DecidableEq

/-! ## Score-pattern matching (src/ocr/extract.rs)

`SCORE_PATTERN` is the anchored regex
`^((\d+[,.])*\d+|[-— – ― ─ ー 一]+)$`: either digit groups separated by
single commas/periods, or a nonempty run of dash-like characters.
The regex crate's `\d` is Unicode-aware by default: it matches the Unicode
general category Nd (decimal number), not only the ASCII digits — e.g. the
fullwidth digits ０-９ match `\d` but are then rejected by `parse_score`,
whose filter is `is_ascii_digit`. `\d` is therefore modelled by the full
Nd range table (Unicode 15.0, 680 characters), while the parse keeps the
ASCII-only digit test. -/

/-- The ranges of the Unicode general category Nd (decimal digits),
Unicode 15.0 — the character class the regex crate's `\d` matches. -/
def ndRanges : List (UInt32 × UInt32) :=
  [(0x0030, 0x0039), (0x0660, 0x0669), (0x06F0, 0x06F9), (0x07C0, 0x07C9),
   (0x0966, 0x096F), (0x09E6, 0x09EF), (0x0A66, 0x0A6F), (0x0AE6, 0x0AEF),
   (0x0B66, 0x0B6F), (0x0BE6, 0x0BEF), (0x0C66, 0x0C6F), (0x0CE6, 0x0CEF),
   (0x0D66, 0x0D6F), (0x0DE6, 0x0DEF), (0x0E50, 0x0E59), (0x0ED0, 0x0ED9),
   (0x0F20, 0x0F29), (0x1040, 0x1049), (0x1090, 0x1099), (0x17E0, 0x17E9),
   (0x1810, 0x1819), (0x1946, 0x194F), (0x19D0, 0x19D9), (0x1A80, 0x1A89),
   (0x1A90, 0x1A99), (0x1B50, 0x1B59), (0x1BB0, 0x1BB9), (0x1C40, 0x1C49),
   (0x1C50, 0x1C59), (0xA620, 0xA629), (0xA8D0, 0xA8D9), (0xA900, 0xA909),
   (0xA9D0, 0xA9D9), (0xA9F0, 0xA9F9), (0xAA50, 0xAA59), (0xABF0, 0xABF9),
   (0xFF10, 0xFF19), (0x104A0, 0x104A9), (0x10D30, 0x10D39),
   (0x11066, 0x1106F), (0x110F0, 0x110F9), (0x11136, 0x1113F),
   (0x111D0, 0x111D9), (0x112F0, 0x112F9), (0x11450, 0x11459),
   (0x114D0, 0x114D9), (0x11650, 0x11659), (0x116C0, 0x116C9),
   (0x11730, 0x11739), (0x118E0, 0x118E9), (0x11950, 0x11959),
   (0x11C50, 0x11C59), (0x11D50, 0x11D59), (0x11DA0, 0x11DA9),
   (0x11F50, 0x11F59), (0x16A60, 0x16A69), (0x16AC0, 0x16AC9),
   (0x16B50, 0x16B59), (0x1D7CE, 0x1D7FF), (0x1E140, 0x1E149),
   (0x1E2F0, 0x1E2F9), (0x1E4F0, 0x1E4F9), (0x1E950, 0x1E959),
   (0x1FBF0, 0x1FBF9)]

/-- Whether a character matches the regex crate's `\d` (Unicode Nd). -/
def isNdDigit (c : Char) : Bool :=
  ndRanges.any fun r => decide (r.1 ≤ c.val ∧ c.val ≤ r.2)

/-- Mirrors `is_dash_char`: hyphen, em-dash, en-dash, horizontal bar,
box-drawing horizontal, katakana prolonged sound mark, CJK one. -/
def isDashChar (c : Char) : Bool :=
  c = '-' || c.val = 0x2014 || c.val = 0x2013 || c.val = 0x2015 ||
  c.val = 0x2500 || c.val = 0x30FC || c.val = 0x4E00

/-- Mirrors `is_dash_like`: a short (1–3 char) token of dash chars or
commonly confused OCR strokes. -/
def isDashLike (t : List Char) : Bool :=
  let len := t.length
  if len = 0 || len > 3 then false
  else t.all fun c =>
    isDashChar c || c = 'I' || c = 'l' || c = '|' || c = '_' || c = '~' ||
    c = '=' || c = '/' || c = '\\' || c = '(' || c = ')' || c = '[' || c = ']'

/-- Deterministic matcher for the numeric branch `(\d+[,.])*\d+`: the
Boolean state records whether the previous character was a digit; the string
must start and end with a digit and separators must be isolated. -/
def numAux : List Char → Bool → Bool
  | [], afterDigit => afterDigit
  | c :: rest, afterDigit =>
    if isNdDigit c then numAux rest true
    else if (c = ',' || c = '.') && afterDigit then numAux rest false
    else false

/-- Full-string match of `SCORE_PATTERN` (the regex is anchored with `^...$`). -/
def matchesScorePattern (t : List Char) : Bool :=
  numAux t false || (!t.isEmpty && t.all isDashChar)

/-- Value of a digit list, as `parse::<u32>` computes it (before the range
check). -/
def natOfDigits (ds : List Char) : Nat :=
  ds.foldl (fun acc c => 10 * acc + (c.toNat - 48)) 0

/-- u32::MAX, the largest value `digits.parse::<u32>()` accepts. -/
def U32_MAX : Nat := 4294967295

/-- Mirrors `parse_score`: all-dash tokens parse to 0; otherwise the ASCII
digits are collected (`is_ascii_digit` — Lean's `Char.isDigit` is exactly
the ASCII test) and parsed as a `u32`, which fails when no ASCII digit is
present (as for a fullwidth-digit token matched by `\d`) or the value
overflows. -/
def parse_score (t : List Char) : Except String Nat :=
  if t.all isDashChar then .ok 0
  else
    let digits := t.filter fun c => c.isDigit
    if digits.isEmpty then .error "No digits found in score"
    else
      let v := natOfDigits digits
      if v ≤ U32_MAX then .ok v else .error "Failed to parse score"

/-- Total version of `parse_score` used to state specifications: the value a
token parses to when parsing succeeds. -/
def tokenVal (t : List Char) : Nat :=
  if t.all isDashChar then 0 else natOfDigits (t.filter fun c => c.isDigit)

/-! ## Single-region extraction (`extract_single_stage`) -/

/-- One row of three scores (`[u32; 3]` in the source). -/
abbrev Row3 := Nat × Nat × Nat

/-- Mirrors writing collected scores into `[0u32; 3]` left-to-right:
`for (i, s) in scores.iter().take(3).enumerate() ... result[i] = s`. -/
def pad3 : List Nat → Row3
  | [] => (0, 0, 0)
  | [a] => (a, 0, 0)
  | [a, b] => (a, b, 0)
  | a :: b :: c :: _ => (a, b, c)

/-- The texts of all words of all lines, in order (the nested
`for line in lines / for word in line.words` iteration). -/
def allWordTexts (lines : List OcrLine) : List (List Char) :=
  (lines.map fun l => l.words.map fun w => w.text).flatten

/-- The word-collection loop of `extract_single_stage`: pattern-matching
words are parsed (errors propagate), and values below 100 are dropped as
recognizer noise. -/
def collectSingle : List (List Char) → Except String (List Nat)
  | [] => .ok []
  | t :: rest =>
    if matchesScorePattern t then
      match parse_score t with
      | .error e => .error e
      | .ok v =>
        match collectSingle rest with
        | .error e => .error e
        | .ok tail => .ok (if 100 ≤ v then v :: tail else tail)
    else collectSingle rest

/-- Mirrors `extract_single_stage`: collect usable score words from all
lines (no confidence gate), error when none are found, else map
left-to-right padding missing slots with 0. -/
def extract_single_stage (lines : List OcrLine) : Except String Row3 :=
  match collectSingle (allWordTexts lines) with
  | .error e => .error e
  | .ok scores =>
    if scores.isEmpty then .error "No scores found in cropped stage region"
    else .ok (pad3 scores)

/-- Specification helper: the usable values of a token list — values of
pattern-matching tokens that are at least 100, in order. -/
def keptVals (ts : List (List Char)) : List Nat :=
  ((ts.filter matchesScorePattern).map tokenVal).filter fun v => decide (100 ≤ v)

/-! ## Three-pass grid extraction (`extract_scores`) -/

/-- Minimum line confidence accepted by passes 1–3. -/
def MIN_CONFIDENCE : ℚ := 60

/-- The pattern-matching word texts of a line (`score_words` in the source). -/
def scoreWordTexts (l : OcrLine) : List (List Char) :=
  (l.words.map fun w => w.text).filter matchesScorePattern

/-- Parses a list of score words into `[0u32; 3]` left-to-right; the first
parse error propagates and missing trailing positions stay 0. -/
def parseAll : List (List Char) → Except String (List Nat)
  | [] => .ok []
  | t :: rest =>
    match parse_score t with
    | .error e => .error e
    | .ok v =>
      match parseAll rest with
      | .error e => .error e
      | .ok vs => .ok (v :: vs)

def parseRow (toks : List (List Char)) : Except String Row3 :=
  match parseAll toks with
  | .error e => .error e
  | .ok vs => .ok (pad3 vs)

/-- Pass 1: strict — a line is consumed when its confidence is at least 60
and it has exactly 3 pattern-matching words; the scan stops once 3 rows are
collected. `idx` is the index of the head of the remaining list. -/
def pass1 : List OcrLine → Nat → List Row3 → List Nat →
    Except String (List Row3 × List Nat)
  | [], _, rows, used => .ok (rows, used)
  | l :: rest, idx, rows, used =>
    if 3 ≤ rows.length then .ok (rows, used)
    else if l.confidence < MIN_CONFIDENCE then pass1 rest (idx + 1) rows used
    else
      let toks := scoreWordTexts l
      if toks.length ≠ 3 then pass1 rest (idx + 1) rows used
      else
        match parseRow toks with
        | .error e => .error e
        | .ok row => pass1 rest (idx + 1) (rows ++ [row]) (used ++ [idx])

/-- The word loop of pass 2: score words parse, dash-like words contribute 0,
anything else is skipped; stops after 3 slots. -/
def collectPass2 : List (List Char) → List Nat → Except String (List Nat)
  | [], acc => .ok acc
  | t :: rest, acc =>
    if 3 ≤ acc.length then .ok acc
    else if matchesScorePattern t then
      match parse_score t with
      | .error e => .error e
      | .ok v => collectPass2 rest (acc ++ [v])
    else if isDashLike t then collectPass2 rest (acc ++ [0])
    else collectPass2 rest acc

/-- Pass 2: degraded dash — unused lines of sufficient confidence whose
score/dash-like words fill exactly 3 slots. -/
def pass2 : List OcrLine → Nat → List Row3 → List Nat →
    Except String (List Row3 × List Nat)
  | [], _, rows, used => .ok (rows, used)
  | l :: rest, idx, rows, used =>
    if 3 ≤ rows.length then .ok (rows, used)
    else if used.contains idx || l.confidence < MIN_CONFIDENCE then
      pass2 rest (idx + 1) rows used
    else
      match collectPass2 (l.words.map fun w => w.text) [] with
      | .error e => .error e
      | .ok vals =>
        if vals.length = 3 then
          pass2 rest (idx + 1) (rows ++ [pad3 vals]) (used ++ [idx])
        else pass2 rest (idx + 1) rows used

/-- Maximum of the used-line indices (`used_lines.iter().max()`). -/
def maxIdx : List Nat → Option Nat
  | [] => none
  | i :: rest =>
    match maxIdx rest with
    | none => some i
    | some m => some (max i m)

/-- `search_start`: one past the last matched line, or 0. -/
def searchStart (used : List Nat) : Nat :=
  match maxIdx used with
  | some m => m + 1
  | none => 0

/-- Pass 3: dropped dash — lines from `searchStart` on, unused, of
sufficient confidence, with 1–3 score words; missing slots stay 0. -/
def pass3 : List OcrLine → Nat → Nat → List Row3 → List Nat →
    Except String (List Row3 × List Nat)
  | [], _, _, rows, used => .ok (rows, used)
  | l :: rest, idx, sStart, rows, used =>
    if 3 ≤ rows.length then .ok (rows, used)
    else if idx < sStart || used.contains idx || l.confidence < MIN_CONFIDENCE then
      pass3 rest (idx + 1) sStart rows used
    else
      let toks := scoreWordTexts l
      if toks.isEmpty || 3 < toks.length then pass3 rest (idx + 1) sStart rows used
      else
        match parseRow toks with
        | .error e => .error e
        | .ok row => pass3 rest (idx + 1) sStart (rows ++ [row]) (used ++ [idx])

/-- Mirrors `extract_scores`: run passes 1–3 in order, returning the grid as
soon as 3 rows are collected, and an error when fewer than 3 remain after
pass 3. -/
def extract_scores (lines : List OcrLine) : Except String (Row3 × Row3 × Row3) :=
  match pass1 lines 0 [] [] with
  | .error e => .error e
  | .ok (rows1, used1) =>
    match rows1 with
    | [a, b, c] => .ok (a, b, c)
    | _ =>
      match pass2 lines 0 rows1 used1 with
      | .error e => .error e
      | .ok (rows2, used2) =>
        match rows2 with
        | [a, b, c] => .ok (a, b, c)
        | _ =>
          match pass3 lines 0 (searchStart used2) rows2 used2 with
          | .error e => .error e
          | .ok (rows3, _) =>
            match rows3 with
            | [a, b, c] => .ok (a, b, c)
            | _ => .error "Could not find all 3 stage scores"

/-- Test helper mirroring `make_line` of the source's test module. -/
def mkWord (s : String) (conf : ℚ) : OcrWord :=
  ⟨s.toList, conf⟩

def mkLine (ws : List String) (conf : ℚ) : OcrLine :=
  ⟨(String.intercalate " " ws).toList, ws.map fun s => mkWord s conf, conf⟩

example : parse_score "12,345".toList = .ok 12345 := by decide
example : parse_score "--".toList = .ok 0 := by decide

/- Fullwidth digits match the Unicode-aware `\d` of the score pattern but
carry no ASCII digit, so `parse_score` rejects them — the matched-but-
unparsable path. -/
example : matchesScorePattern "１２３".toList = true := by decide
example : parse_score "１２３".toList = .error "No digits found in score" := by
  decide
example :
    extract_single_stage [mkLine ["12345", "１２３"] 90] =
      .error "No digits found in score" := by decide
example :
    extract_scores
      [mkLine ["１", "２", "３"] 90,
       mkLine ["50339", "50796", "70859"] 90,
       mkLine ["64997", "168009", "128450"] 90,
       mkLine ["122130", "105901", "96776"] 90] =
    .error "No digits found in score" := by decide
example :
    extract_single_stage [mkLine ["12345", "50", "23456"] 90] =
      .ok (12345, 23456, 0) := by decide

example :
    extract_scores
      [mkLine ["50339", "50796", "70859"] 90,
       mkLine ["64997", "168009", "128450"] 90,
       mkLine ["122130", "105901", "96776"] 90] =
    .ok ((50339, 50796, 70859), (64997, 168009, 128450),
         (122130, 105901, 96776)) := by decide

/-! ## Automation state machine (src/automation/state.rs)

`AutomationContext::step` performs I/O through collaborators (window
validity, detection waits, clicks, capture, persistence, enqueue). Each
collaborator call of a single step is modelled by an oracle field of
`StepEnv` recording its outcome, so `step` becomes a pure function of the
environment and the context. In the source every return of `step` is
`Ok(..)`, so the `Result<bool>` return is modelled as the plain `Bool`
continue/stop signal. -/

inductive AutomationState where
  | Idle
  | WaitingForStartPage
  | ClickingStart
  | WaitingForLoading
  | ClickingSkip
  | WaitingForResult
  | Capturing
  | ClickingEnd
  | CheckingLoop
  | Complete
  | Error (reason : String)
  | Aborted
deriving DecidableEq

/-- The fields of `AutomationContext` that `step` reads or writes (window
handle, configuration, channel and paths are only passed to collaborators,
which the `StepEnv` oracles stand for). -/
structure AutomationContext where
  state : AutomationState
  current_iteration : Nat
  max_iterations : Nat
deriving DecidableEq

/-- Outcomes of the collaborator calls a single `step` can make:
the two abort-flag loads, `is_window_valid`, the three detection waits,
the three `click_with_focus` calls, capture, image save and queue send. -/
structure StepEnv where
  abortAtEntry : Bool
  windowValid : Bool
  startPageWaitOk : Bool
  abortSeenAfterStartWait : Bool
  clickStartOk : Bool
  loadingWaitOk : Bool
  abortSeenAfterLoadingWait : Bool
  clickSkipOk : Bool
  resultWaitOk : Bool
  abortSeenAfterResultWait : Bool
  captureOk : Bool
  saveOk : Bool
  enqueueOk : Bool
  clickEndOk : Bool
deriving DecidableEq

/-- Mirrors `AutomationContext::step`: the abort flag is checked first, then
window validity, then the current state's own logic. -/
def step (env : StepEnv) (ctx : AutomationContext) : AutomationContext × Bool :=
  if env.abortAtEntry then ({ ctx with state := .Aborted }, false)
  else if !env.windowValid then
    ({ ctx with state := .Error "Game window closed" }, false)
  else
    match ctx.state with
    | .Idle =>
      ({ ctx with current_iteration := 1, state := .WaitingForStartPage }, true)
    | .WaitingForStartPage =>
      if env.startPageWaitOk then ({ ctx with state := .ClickingStart }, true)
      else if env.abortSeenAfterStartWait then ({ ctx with state := .Aborted }, false)
      else ({ ctx with state := .Error "Start page wait failed" }, false)
    | .ClickingStart =>
      if env.clickStartOk then ({ ctx with state := .WaitingForLoading }, true)
      else ({ ctx with state := .Error "Failed to click Start" }, false)
    | .WaitingForLoading =>
      if env.loadingWaitOk then ({ ctx with state := .ClickingSkip }, true)
      else if env.abortSeenAfterLoadingWait then ({ ctx with state := .Aborted }, false)
      else ({ ctx with state := .Error "Loading wait failed" }, false)
    | .ClickingSkip =>
      if env.clickSkipOk then ({ ctx with state := .WaitingForResult }, true)
      else ({ ctx with state := .Error "Failed to click Skip" }, false)
    | .WaitingForResult =>
      if env.resultWaitOk then ({ ctx with state := .Capturing }, true)
      else if env.abortSeenAfterResultWait then ({ ctx with state := .Aborted }, false)
      else ({ ctx with state := .Error "Result wait failed" }, false)
    | .Capturing =>
      if !env.captureOk then ({ ctx with state := .Error "Failed to capture" }, false)
      else if !env.saveOk then
        ({ ctx with state := .Error "Failed to save screenshot" }, false)
      else
        ({ ctx with state := .ClickingEnd }, true)
    | .ClickingEnd =>
      if env.clickEndOk then ({ ctx with state := .CheckingLoop }, true)
      else ({ ctx with state := .Error "Failed to click End" }, false)
    | .CheckingLoop =>
      if ctx.max_iterations ≤ ctx.current_iteration then
        ({ ctx with state := .Complete }, false)
      else
        ({ ctx with current_iteration := ctx.current_iteration + 1,
                    state := .WaitingForStartPage }, true)
    | .Complete => (ctx, false)
    | .Error _ => (ctx, false)
    | .Aborted => (ctx, false)

/-- An environment whose entry abort flag is set and whose window check
would fail, exercising the precedence of the abort check. -/
def abortEnv : StepEnv :=
  ⟨true, false, false, false, false, false, false, false, false, false,
   false, false, false, false⟩

/-- An environment where no abort is pending, the window is valid and all
collaborator calls succeed. -/
def benignEnv : StepEnv :=
  ⟨false, true, true, false, true, true, false, true, true, false,
   true, true, true, true⟩

/-- C2: whenever the cancellation flag is set at the entry of `step`, the
state becomes `Aborted` and `step` reports stop, regardless of the window
check and of every collaborator outcome — in particular from each wait-type
state the next step is never `Error` and never the next interaction
state. -/
theorem step_abort_short_circuit (env : StepEnv) (ctx : AutomationContext)
    (h : env.abortAtEntry = true) :
    step env ctx = ({ ctx with state := .Aborted }, false) := by
  simp [step, h]

theorem step_abort_short_circuit_witness :
    abortEnv.abortAtEntry = true ∧ abortEnv.windowValid = false ∧
    step abortEnv ⟨.WaitingForLoading, 2, 5⟩ =
      (⟨.Aborted, 2, 5⟩, false) :=
  ⟨rfl, rfl, step_abort_short_circuit abortEnv ⟨.WaitingForLoading, 2, 5⟩ rfl⟩

/-- C3: in `CheckingLoop` with no abort pending and a valid window, a step
at `current_iteration = max_iterations` goes to `Complete` and reports stop,
and a step at any lesser value increments the counter by exactly 1, goes to
`WaitingForStartPage` and reports continue. -/
theorem step_checking_loop_spec (env : StepEnv) (n m : Nat)
    (ha : env.abortAtEntry = false) (hw : env.windowValid = true) :
    step env ⟨.CheckingLoop, n, n⟩ = (⟨.Complete, n, n⟩, false) ∧
    (m < n →
      step env ⟨.CheckingLoop, m, n⟩ = (⟨.WaitingForStartPage, m + 1, n⟩, true)) := by
  constructor
  · simp [step, ha, hw]
  · intro hm
    simp [step, ha, hw, Nat.not_le.mpr hm]

theorem step_checking_loop_witness :
    benignEnv.abortAtEntry = false ∧ benignEnv.windowValid = true ∧ 2 < 5 ∧
    step benignEnv ⟨.CheckingLoop, 5, 5⟩ = (⟨.Complete, 5, 5⟩, false) ∧
    step benignEnv ⟨.CheckingLoop, 2, 5⟩ = (⟨.WaitingForStartPage, 3, 5⟩, true) :=
  ⟨rfl, rfl, by decide,
   (step_checking_loop_spec benignEnv 5 2 rfl rfl).1,
   (step_checking_loop_spec benignEnv 5 2 rfl rfl).2 (by decide)⟩

/-- C4 counterexample: the `Idle` arm also writes the iteration counter
(it initializes it to 1), so `CheckingLoop` is not the only state whose
step mutates `current_iteration`: from the freshly constructed context
(state `Idle`, counter 0) a benign step changes the counter. -/
theorem step_idle_iteration_cex :
    (⟨.Idle, 0, 5⟩ : AutomationContext).state ≠ .CheckingLoop ∧
    (step benignEnv ⟨.Idle, 0, 5⟩).1.current_iteration ≠
      (⟨.Idle, 0, 5⟩ : AutomationContext).current_iteration := by
  decide

/-- C4 (amended): a step leaves `current_iteration` unchanged unless the
state is `CheckingLoop` or `Idle`; the `Idle` arm initializes the counter
to 1; and the `CheckingLoop` arm consults no collaborator — its result is
the same under every environment agreeing on the two entry guards — and
cannot fail: it goes to `Complete`, or increments and goes to
`WaitingForStartPage`. -/
theorem step_iteration_frame (env : StepEnv) (ctx : AutomationContext) :
    (ctx.state ≠ .CheckingLoop → ctx.state ≠ .Idle →
      (step env ctx).1.current_iteration = ctx.current_iteration) ∧
    (ctx.state = .Idle → env.abortAtEntry = false → env.windowValid = true →
      (step env ctx).1.current_iteration = 1) ∧
    (ctx.state = .CheckingLoop → env.abortAtEntry = false →
      env.windowValid = true →
      (∀ env2 : StepEnv, env2.abortAtEntry = false → env2.windowValid = true →
        step env2 ctx = step env ctx) ∧
      ((step env ctx).1.state = .Complete ∨
        ((step env ctx).1.state = .WaitingForStartPage ∧
          (step env ctx).1.current_iteration = ctx.current_iteration + 1))) := by
  refine ⟨?_, ?_, ?_⟩
  · intro h1 h2
    cases hs : ctx.state
    case Idle => exact absurd hs h2
    case CheckingLoop => exact absurd hs h1
    all_goals (simp only [step, hs, Bool.not_eq_true]; split_ifs <;> rfl)
  · intro hs ha hw
    simp [step, hs, ha, hw]
  · intro hs ha hw
    constructor
    · intro env2 ha2 hw2
      simp [step, hs, ha, hw, ha2, hw2]
    · by_cases hm : ctx.max_iterations ≤ ctx.current_iteration
      · left; simp [step, hs, ha, hw, hm]
      · right; simp [step, hs, ha, hw, hm]

theorem step_iteration_frame_witness :
    ((⟨.WaitingForLoading, 2, 5⟩ : AutomationContext).state ≠ .CheckingLoop) ∧
    (step benignEnv ⟨.WaitingForLoading, 2, 5⟩).1.current_iteration = 2 :=
  ⟨by decide,
   (step_iteration_frame benignEnv ⟨.WaitingForLoading, 2, 5⟩).1
     (by decide) (by decide)⟩

/-! ## Detection (src/automation/detection.rs)

Images are `ImageBuffer<Rgba<u8>, _>`: four `u8` channels per pixel, with
exactly `width * height` pixels. The `f32`/`f64` arithmetic of
`calculate_brightness` and `calculate_histogram` is modelled exactly over
`ℚ`; the square root of `histogram_similarity` lives in `ℝ`. The `as u8`
grayscale conversion truncates, modelled by natural division. -/

structure Pixel where
  r : Fin 256
  g : Fin 256
  b : Fin 256
  a : Fin 256
deriving DecidableEq

structure ImageM where
  width : Nat
  height : Nat
  pixels : List Pixel
  pixel_count_eq : pixels.length = width * height

/-- The ITU-R BT.601 luma `0.299 R + 0.587 G + 0.114 B` of one pixel. -/
def lumaQ (p : Pixel) : ℚ :=
  ((299 * p.r.val + 587 * p.g.val + 114 * p.b.val : ℕ) : ℚ) / 1000

/-- Mirrors `calculate_brightness`: 0 for a zero-size image, otherwise the
mean luma over all pixels. -/
def calculate_brightness (img : ImageM) : ℚ :=
  if img.width = 0 ∨ img.height = 0 then 0
  else (img.pixels.map lumaQ).sum / ((img.width * img.height : ℕ) : ℚ)

/-- The grayscale bin of a pixel (`(0.299 R + 0.587 G + 0.114 B) as u8`). -/
def grayIdx (p : Pixel) : Fin 256 :=
  ⟨(299 * p.r.val + 587 * p.g.val + 114 * p.b.val) / 1000, by
    have h1 := p.r.isLt
    have h2 := p.g.isLt
    have h3 := p.b.isLt
    exact (Nat.div_lt_iff_lt_mul (by norm_num)).mpr (by omega)⟩

/-- Number of pixels falling in bin `i`. -/
def histCount (img : ImageM) (i : Fin 256) : Nat :=
  (img.pixels.filter fun p => grayIdx p == i).length

/-- Mirrors `calculate_histogram`: the all-zero histogram for a zero-size
image, else each bin count normalized by the pixel count. -/
def calculate_histogram (img : ImageM) (i : Fin 256) : ℚ :=
  if img.width * img.height = 0 then 0
  else (histCount img i : ℚ) / ((img.width * img.height : ℕ) : ℚ)

/-- Mirrors `histogram_similarity`: the Bhattacharyya coefficient
`∑ i, sqrt (h1 i * h2 i)`. -/
noncomputable def histogram_similarity (h1 h2 : Fin 256 → ℚ) : ℝ :=
  ∑ i : Fin 256, Real.sqrt ((h1 i : ℝ) * (h2 i : ℝ))

lemma sum_map_eq_const {α : Type} (f : α → ℚ) (c : ℚ) :
    ∀ l : List α, (∀ x ∈ l, f x = c) → (l.map f).sum = l.length * c := by
  intro l
  induction l with
  | nil => simp
  | cons x t ih =>
    intro h
    simp only [List.map_cons, List.sum_cons, List.length_cons]
    rw [h x (by simp), ih fun y hy => h y (by simp [hy])]
    push_cast
    ring

/-- C8: on a nonempty image all of whose pixels have equal channels
`R = G = B = v`, the brightness is exactly `v`. -/
theorem calculate_brightness_const (img : ImageM) (v : Fin 256)
    (hw : img.width ≠ 0) (hh : img.height ≠ 0)
    (hv : ∀ p ∈ img.pixels, p.r = v ∧ p.g = v ∧ p.b = v) :
    calculate_brightness img = (v.val : ℚ) := by
  have hlv : ∀ p ∈ img.pixels, lumaQ p = (v.val : ℚ) := by
    intro p hp
    obtain ⟨h1, h2, h3⟩ := hv p hp
    rw [lumaQ, h1, h2, h3]
    have : (299 * v.val + 587 * v.val + 114 * v.val : ℕ) = 1000 * v.val := by ring
    rw [this]
    push_cast
    field_simp
  have hNQ : ((img.width * img.height : ℕ) : ℚ) ≠ 0 := by
    exact_mod_cast Nat.cast_ne_zero.mpr (Nat.mul_ne_zero hw hh)
  rw [calculate_brightness, if_neg (by simp [hw, hh]),
    sum_map_eq_const lumaQ (v.val : ℚ) img.pixels hlv, img.pixel_count_eq]
  field_simp

def onePixelImg : ImageM := ⟨1, 1, [⟨137, 137, 137, 255⟩], rfl⟩

theorem calculate_brightness_const_witness :
    onePixelImg.width ≠ 0 ∧ onePixelImg.height ≠ 0 ∧
    calculate_brightness onePixelImg = ((137 : Fin 256).val : ℚ) :=
  ⟨by decide, by decide,
   calculate_brightness_const onePixelImg 137 (by decide) (by decide) (by decide)⟩

/-- C9: both detection statistics are guarded against a zero pixel count:
on an image of width 0 or height 0, brightness is 0 and every histogram
bin is 0, with no division performed. -/
theorem detection_empty_image_safe (img : ImageM)
    (h : img.width = 0 ∨ img.height = 0) :
    calculate_brightness img = 0 ∧ ∀ i, calculate_histogram img i = 0 := by
  have hN : img.width * img.height = 0 := by
    rcases h with h | h <;> simp [h]
  exact ⟨by rw [calculate_brightness, if_pos h],
    fun i => by rw [calculate_histogram, if_pos hN]⟩

def emptyImg : ImageM := ⟨0, 5, [], rfl⟩

theorem detection_empty_image_safe_witness :
    (emptyImg.width = 0 ∨ emptyImg.height = 0) ∧
    calculate_brightness emptyImg = 0 ∧ calculate_histogram emptyImg 0 = 0 :=
  ⟨Or.inl rfl, (detection_empty_image_safe emptyImg (Or.inl rfl)).1,
   (detection_empty_image_safe emptyImg (Or.inl rfl)).2 0⟩

lemma sum_histCount (l : List Pixel) :
    ∑ i : Fin 256, (((l.filter fun p => grayIdx p == i).length : ℕ) : ℚ) =
      (l.length : ℚ) := by
  induction l with
  | nil => simp
  | cons p t ih =>
    have hstep : ∀ i : Fin 256,
        ((((p :: t).filter fun q => grayIdx q == i).length : ℕ) : ℚ) =
          (if grayIdx p = i then 1 else 0) +
            (((t.filter fun q => grayIdx q == i).length : ℕ) : ℚ) := by
      intro i
      by_cases h : grayIdx p = i
      · simp [List.filter_cons, h]
        ring
      · simp [List.filter_cons, h]
    rw [Finset.sum_congr rfl fun i _ => hstep i, Finset.sum_add_distrib, ih]
    simp [Finset.sum_ite_eq]
    ring

/-- C7 (amended): the Bhattacharyya similarity is symmetric for all
histograms, and the histogram of any image with at least one pixel has
self-similarity exactly 1 (the 0×0 image is the excluded degenerate case:
its histogram is all-zero and its self-similarity is 0). -/
theorem histogram_similarity_spec :
    (∀ h1 h2 : Fin 256 → ℚ,
      histogram_similarity h1 h2 = histogram_similarity h2 h1) ∧
    (∀ img : ImageM, 0 < img.width * img.height →
      histogram_similarity (calculate_histogram img) (calculate_histogram img) = 1) := by
  constructor
  · intro h1 h2
    unfold histogram_similarity
    exact Finset.sum_congr rfl fun i _ => by rw [mul_comm]
  · intro img hpos
    have hN : img.width * img.height ≠ 0 := Nat.pos_iff_ne_zero.mp hpos
    have hNQ : ((img.width * img.height : ℕ) : ℚ) ≠ 0 := Nat.cast_ne_zero.mpr hN
    have hnn : ∀ i : Fin 256, 0 ≤ calculate_histogram img i := by
      intro i
      rw [calculate_histogram, if_neg hN]
      positivity
    have hsum : ∑ i : Fin 256, calculate_histogram img i = 1 := by
      have harm : ∀ i : Fin 256, calculate_histogram img i =
          ((histCount img i : ℕ) : ℚ) / ((img.width * img.height : ℕ) : ℚ) :=
        fun i => by rw [calculate_histogram, if_neg hN]
      rw [Finset.sum_congr rfl fun i _ => harm i, ← Finset.sum_div]
      simp only [histCount]
      rw [sum_histCount, img.pixel_count_eq]
      exact div_self hNQ
    unfold histogram_similarity
    have hsq : ∀ i : Fin 256,
        Real.sqrt ((calculate_histogram img i : ℝ) * (calculate_histogram img i : ℝ)) =
          ((calculate_histogram img i : ℚ) : ℝ) := by
      intro i
      exact Real.sqrt_mul_self (by exact_mod_cast hnn i)
    rw [Finset.sum_congr rfl fun i _ => hsq i]
    rw [← Rat.cast_sum, hsum]
    norm_num

def zeroImg : ImageM := ⟨0, 0, [], rfl⟩

/-- C7 counterexample: against the claim's universal quantification over
images, the 0×0 image's histogram has self-similarity 0, not 1. -/
theorem histogram_similarity_empty_cex :
    histogram_similarity (calculate_histogram zeroImg) (calculate_histogram zeroImg) ≠ 1 := by
  have hz : ∀ i, calculate_histogram zeroImg i = 0 :=
    fun i => by
      rw [calculate_histogram,
        if_pos (show zeroImg.width * zeroImg.height = 0 by rfl)]
  have h0 : histogram_similarity (calculate_histogram zeroImg)
      (calculate_histogram zeroImg) = 0 := by
    unfold histogram_similarity
    refine Finset.sum_eq_zero fun i _ => ?_
    rw [hz i]
    simp
  rw [h0]
  norm_num

theorem histogram_similarity_spec_witness :
    0 < onePixelImg.width * onePixelImg.height ∧
    histogram_similarity (calculate_histogram onePixelImg)
      (calculate_histogram onePixelImg) = 1 :=
  ⟨by decide, histogram_similarity_spec.2 onePixelImg (by decide)⟩

/-! ## Work queue and OCR worker (src/automation/queue.rs, ocr_worker.rs)

Modelled from the spec: the work queue is an unbounded FIFO
single-producer/single-consumer channel (`std::sync::mpsc`); after the
producer is dropped, each `recv` yields the queued items in order and then
reports disconnection. The claim's scenario (producer already dropped with
N items queued) is therefore the worker's loop run against the remaining
FIFO list: an empty list means `recv` returns the disconnect error. The
recognition, image-loading and CSV collaborators are outcome oracles: their
failures are logged and skip the item but never terminate the loop. -/

structure OcrWorkItem where
  screenshot_path : String
  iteration : Nat
  captured_at : Nat
deriving DecidableEq

abbrev ScoreGrid := Row3 × Row3 × Row3

structure WorkerEnv where
  loadResult : OcrWorkItem → Except String Unit
  ocrResult : OcrWorkItem → Except String ScoreGrid
  csvResult : OcrWorkItem → ScoreGrid → Except String Unit
  rawCsvResult : OcrWorkItem → ScoreGrid → Except String Unit

/-- The per-item body of the worker loop: a load or OCR failure skips the
item (`continue`), CSV failures are logged and ignored. Returns the scores
the item contributed, if any. -/
def handleItem (env : WorkerEnv) (item : OcrWorkItem) : Option ScoreGrid :=
  match env.loadResult item with
  | .error _ => none
  | .ok _ =>
    match env.ocrResult item with
    | .error _ => none
    | .ok scores => some scores

/-- Mirrors `run_ocr_worker` on a channel whose producer was dropped:
receive until the disconnect error, handling each received item. -/
def run_ocr_worker (env : WorkerEnv) : List OcrWorkItem → List (OcrWorkItem × Option ScoreGrid)
  | [] => []
  | item :: rest => (item, handleItem env item) :: run_ocr_worker env rest

/-! ## Lemmas about the single-region extraction -/

lemma keptVals_cons (t : List Char) (ts : List (List Char)) :
    keptVals (t :: ts) =
      if matchesScorePattern t then
        (if 100 ≤ tokenVal t then tokenVal t :: keptVals ts else keptVals ts)
      else keptVals ts := by
  by_cases hm : matchesScorePattern t
  · by_cases hv : 100 ≤ tokenVal t
    · simp [keptVals, List.filter_cons, hm, hv]
    · simp [keptVals, List.filter_cons, hm, hv]
  · simp [keptVals, List.filter_cons, hm]

/-- When every pattern-matching token parses successfully, the collection
loop of `extract_single_stage` succeeds with exactly the usable values.
(A matched token can fail to parse in two ways: no ASCII digit — e.g. a
fullwidth-digit token — or a value overflowing `u32`.) -/
lemma collectSingle_ok : ∀ ts : List (List Char),
    (∀ t ∈ ts, matchesScorePattern t = true → parse_score t = .ok (tokenVal t)) →
    collectSingle ts = .ok (keptVals ts) := by
  intro ts
  induction ts with
  | nil => intro _; rfl
  | cons t rest ih =>
    intro h
    have hrest := ih fun t' ht' hm' => h t' (by simp [ht']) hm'
    by_cases hm : matchesScorePattern t
    · rw [keptVals_cons, if_pos hm]
      simp [collectSingle, hm, h t (by simp) hm, hrest]
    · rw [keptVals_cons, if_neg (by simp [hm])]
      simp [collectSingle, hm, hrest]

/-- C5 (amended): provided every pattern-matching token parses successfully
as a `u32`, `extract_single_stage` applies no line-confidence gate (its
result depends only on the word texts), drops every matched token parsing
below 100 (dashes parse to 0 and are dropped), maps the kept values
left-to-right padding trailing slots with 0, and errors exactly when zero
usable tokens are found. A matched token failing `parse_score` — a `u32`
overflow, or a `\d`-matching token with no ASCII digit such as a
fullwidth-digit token — instead fails the whole extraction even when usable
tokens are present (see the counterexample). -/
theorem extract_single_stage_spec (lines : List OcrLine)
    (h : ∀ t ∈ allWordTexts lines,
      matchesScorePattern t = true → parse_score t = .ok (tokenVal t)) :
    ((∃ msg, extract_single_stage lines = .error msg) ↔
      keptVals (allWordTexts lines) = []) ∧
    (keptVals (allWordTexts lines) ≠ [] →
      extract_single_stage lines = .ok (pad3 (keptVals (allWordTexts lines)))) ∧
    (∀ lines2 : List OcrLine, allWordTexts lines2 = allWordTexts lines →
      extract_single_stage lines2 = extract_single_stage lines) := by
  have hc := collectSingle_ok (allWordTexts lines) h
  have hok : keptVals (allWordTexts lines) ≠ [] →
      extract_single_stage lines = .ok (pad3 (keptVals (allWordTexts lines))) := by
    intro hne
    rw [extract_single_stage, hc]
    simp [List.isEmpty_iff, hne]
  refine ⟨⟨?_, ?_⟩, hok, ?_⟩
  · rintro ⟨msg, hmsg⟩
    by_contra hne
    rw [hok hne] at hmsg
    cases hmsg
  · intro hempty
    refine ⟨"No scores found in cropped stage region", ?_⟩
    rw [extract_single_stage, hc, hempty]
    rfl
  · intro lines2 h2
    rw [extract_single_stage, extract_single_stage, h2]

def w5lines : List OcrLine := [mkLine ["12345", "50", "--"] 90]

theorem extract_single_stage_spec_witness :
    keptVals (allWordTexts w5lines) ≠ [] ∧
    extract_single_stage w5lines = .ok (12345, 0, 0) := by
  refine ⟨by decide, ?_⟩
  have h2 := (extract_single_stage_spec w5lines (by decide)).2.1 (by decide)
  have e : pad3 (keptVals (allWordTexts w5lines)) = (12345, 0, 0) := by decide
  rw [e] at h2
  exact h2

def c5cexLines : List OcrLine := [mkLine ["12345", "9999999999"] 90]

/-- C5 counterexample: the line holds the usable token 12345, yet
`extract_single_stage` errors because the co-occurring token 9999999999
matches the score pattern and overflows `u32` in `parse_score` — so it is
not true that an error occurs only when zero usable tokens are found. -/
theorem extract_single_stage_overflow_cex :
    ("12345".toList ∈ allWordTexts c5cexLines ∧
      matchesScorePattern "12345".toList = true ∧
      100 ≤ tokenVal "12345".toList) ∧
    extract_single_stage c5cexLines = .error "Failed to parse score" :=
  ⟨⟨by decide, by decide, by decide⟩, by decide⟩

/-! ## Lemmas for the output invariant of `extract_single_stage` -/

lemma collectSingle_mem : ∀ (ts : List (List Char)) (vs : List Nat),
    collectSingle ts = .ok vs → ∀ v ∈ vs, 100 ≤ v := by
  intro ts
  induction ts with
  | nil =>
    intro vs h v hv
    simp [collectSingle] at h
    subst h
    cases hv
  | cons t rest ih =>
    intro vs h v hv
    by_cases hm : matchesScorePattern t
    · rw [collectSingle] at h
      rw [if_pos hm] at h
      cases hp : parse_score t with
      | error e => rw [hp] at h; cases h
      | ok w =>
        rw [hp] at h
        cases hr : collectSingle rest with
        | error e => rw [hr] at h; cases h
        | ok tail =>
          rw [hr] at h
          have hvs : (if 100 ≤ w then w :: tail else tail) = vs := by
            cases h; rfl
          subst hvs
          by_cases hw : 100 ≤ w
          · rw [if_pos hw] at hv
            rcases List.mem_cons.mp hv with rfl | hv2
            · exact hw
            · exact ih tail hr v hv2
          · rw [if_neg hw] at hv
            exact ih tail hr v hv
    · rw [collectSingle, if_neg (by simp [hm])] at h
      exact ih vs h v hv

lemma pad3_cells (vs : List Nat) (hall : ∀ v ∈ vs, 100 ≤ v) :
    ((pad3 vs).1 = 0 ∨ 100 ≤ (pad3 vs).1) ∧
    ((pad3 vs).2.1 = 0 ∨ 100 ≤ (pad3 vs).2.1) ∧
    ((pad3 vs).2.2 = 0 ∨ 100 ≤ (pad3 vs).2.2) := by
  match vs with
  | [] => exact ⟨Or.inl rfl, Or.inl rfl, Or.inl rfl⟩
  | [a] => exact ⟨Or.inr (hall a (by simp)), Or.inl rfl, Or.inl rfl⟩
  | [a, b] =>
    exact ⟨Or.inr (hall a (by simp)), Or.inr (hall b (by simp)), Or.inl rfl⟩
  | a :: b :: c :: _ =>
    exact ⟨Or.inr (hall a (by simp)), Or.inr (hall b (by simp)),
      Or.inr (hall c (by simp))⟩

/-- C10: every cell of a successful `extract_single_stage` result is either
0 (a padded slot) or at least 100 (a kept token); no value strictly between
0 and 100 appears. -/
theorem extract_single_stage_cells_invariant (lines : List OcrLine) (g : Row3)
    (h : extract_single_stage lines = .ok g) :
    (g.1 = 0 ∨ 100 ≤ g.1) ∧ (g.2.1 = 0 ∨ 100 ≤ g.2.1) ∧
    (g.2.2 = 0 ∨ 100 ≤ g.2.2) := by
  rw [extract_single_stage] at h
  cases hc : collectSingle (allWordTexts lines) with
  | error e => rw [hc] at h; cases h
  | ok vs =>
    rw [hc] at h
    have h2 : (if vs.isEmpty = true then
        (Except.error "No scores found in cropped stage region" : Except String Row3)
      else Except.ok (pad3 vs)) = Except.ok g := h
    by_cases he : vs.isEmpty
    · rw [if_pos he] at h2
      cases h2
    · rw [if_neg he] at h2
      have hg : pad3 vs = g := by cases h2; rfl
      subst hg
      exact pad3_cells vs (collectSingle_mem (allWordTexts lines) vs hc)

/-! ## Pass 1 of `extract_scores` -/

/-- Driving lemma for pass 1: when the lines with exactly 3 score words are
`gs`, all of confidence at least 60, whose rows parse to `rs`, and `gs`
tops the row accumulator up to exactly 3, pass 1 collects precisely
`rows ++ rs`. -/
lemma pass1_spec : ∀ (ls : List OcrLine) (idx : Nat) (rows : List Row3)
    (used : List Nat) (gs : List OcrLine) (rs : List Row3),
    ls.filter (fun l => decide ((scoreWordTexts l).length = 3)) = gs →
    rows.length + gs.length = 3 →
    (∀ l ∈ gs, MIN_CONFIDENCE ≤ l.confidence) →
    gs.map (fun l => parseRow (scoreWordTexts l)) = rs.map Except.ok →
    ∃ used2, pass1 ls idx rows used = .ok (rows ++ rs, used2) := by
  intro ls
  induction ls with
  | nil =>
    intro idx rows used gs rs hf hlen hconf hparse
    have hgs : gs = [] := by simpa using hf.symm
    subst hgs
    have hrs : rs = [] := by
      cases rs with
      | nil => rfl
      | cons r rs2 => simp at hparse
    subst hrs
    exact ⟨used, by simp [pass1]⟩
  | cons l rest ih =>
    intro idx rows used gs rs hf hlen hconf hparse
    by_cases hq : (scoreWordTexts l).length = 3
    · rw [List.filter_cons, if_pos (by simp [hq])] at hf
      cases gs with
      | nil => cases hf
      | cons g gs2 =>
        have hgl : g = l := by cases hf; rfl
        subst hgl
        have hf2 : rest.filter (fun l => decide ((scoreWordTexts l).length = 3)) = gs2 := by
          cases hf; rfl
        cases rs with
        | nil => simp at hparse
        | cons r rs2 =>
          have hpl : parseRow (scoreWordTexts g) = .ok r := by
            simp at hparse
            exact hparse.1
          have hparse2 : gs2.map (fun l => parseRow (scoreWordTexts l)) =
              rs2.map Except.ok := by
            simp at hparse
            exact hparse.2
          have h3 : ¬ 3 ≤ rows.length := by
            simp at hlen
            omega
          have hcl : ¬ g.confidence < MIN_CONFIDENCE :=
            not_lt.mpr (hconf g (by simp))
          obtain ⟨used2, hrec⟩ := ih (idx + 1) (rows ++ [r]) (used ++ [idx]) gs2 rs2
            hf2 (by simp at hlen ⊢; omega)
            (fun l2 hl2 => hconf l2 (by simp [hl2])) hparse2
          refine ⟨used2, ?_⟩
          rw [pass1, if_neg h3, if_neg hcl]
          simp [hq, hpl, hrec]
    · rw [List.filter_cons, if_neg (by simp [hq])] at hf
      by_cases h3 : 3 ≤ rows.length
      · have hgs : gs = [] := by
          cases gs with
          | nil => rfl
          | cons g gs2 => simp at hlen; omega
        subst hgs
        have hrs : rs = [] := by
          cases rs with
          | nil => rfl
          | cons r rs2 => simp at hparse
        subst hrs
        exact ⟨used, by rw [pass1, if_pos h3]; simp⟩
      · obtain ⟨used2, hrec⟩ := ih (idx + 1) rows used gs rs hf hlen hconf hparse
        refine ⟨used2, ?_⟩
        by_cases hcl : l.confidence < MIN_CONFIDENCE
        · rw [pass1, if_neg h3, if_pos hcl]
          exact hrec
        · rw [pass1, if_neg h3, if_neg hcl]
          simp only [if_pos hq]
          exact hrec

/-- C1 (amended): on input whose lines with exactly 3 score-like tokens
(full Unicode `\d` as in the real regex) are precisely 3 lines, each of
confidence at least 60 and each of whose token triples parses successfully
as `u32` values, `extract_scores` succeeds in pass 1 with the 3×3 grid of
those lines' parsed token values, in input order and left-to-right. -/
theorem extract_scores_pass1_strict (lines : List OcrLine)
    (l1 l2 l3 : OcrLine) (r1 r2 r3 : Row3)
    (hf : lines.filter (fun l => decide ((scoreWordTexts l).length = 3)) = [l1, l2, l3])
    (hc1 : MIN_CONFIDENCE ≤ l1.confidence)
    (hc2 : MIN_CONFIDENCE ≤ l2.confidence)
    (hc3 : MIN_CONFIDENCE ≤ l3.confidence)
    (hp1 : parseRow (scoreWordTexts l1) = .ok r1)
    (hp2 : parseRow (scoreWordTexts l2) = .ok r2)
    (hp3 : parseRow (scoreWordTexts l3) = .ok r3) :
    extract_scores lines = .ok (r1, r2, r3) := by
  have hconf : ∀ l ∈ [l1, l2, l3], MIN_CONFIDENCE ≤ l.confidence := by
    intro l hl
    simp only [List.mem_cons, List.not_mem_nil, or_false] at hl
    rcases hl with rfl | rfl | rfl
    · exact hc1
    · exact hc2
    · exact hc3
  obtain ⟨used2, hrec⟩ := pass1_spec lines 0 [] [] [l1, l2, l3] [r1, r2, r3]
    hf (by simp) hconf (by simp [hp1, hp2, hp3])
  have hrec2 : pass1 lines 0 [] [] = .ok ([r1, r2, r3], used2) := by
    simpa using hrec
  rw [extract_scores, hrec2]

def w1l1 : OcrLine := mkLine ["50339", "50796", "70859"] 90
def w1l2 : OcrLine := mkLine ["64997", "168009", "128450"] 90
def w1l3 : OcrLine := mkLine ["122130", "105901", "96776"] 90
def w1lines : List OcrLine := [mkLine ["noise"] 95, w1l1, w1l2, w1l3]

theorem extract_scores_pass1_strict_witness :
    w1lines.filter (fun l => decide ((scoreWordTexts l).length = 3)) =
      [w1l1, w1l2, w1l3] ∧
    extract_scores w1lines =
      .ok ((50339, 50796, 70859), (64997, 168009, 128450),
        (122130, 105901, 96776)) :=
  ⟨by decide,
   extract_scores_pass1_strict w1lines w1l1 w1l2 w1l3
     (50339, 50796, 70859) (64997, 168009, 128450) (122130, 105901, 96776)
     (by decide) (by decide) (by decide) (by decide)
     (by decide) (by decide) (by decide)⟩

def c1cexLines : List OcrLine :=
  [mkLine ["9999999999", "9999999999", "9999999999"] 90,
   mkLine ["9999999999", "9999999999", "9999999999"] 90,
   mkLine ["9999999999", "9999999999", "9999999999"] 90]

/-- C1 counterexample: three lines of confidence 90 each holding exactly 3
score-like tokens, yet `extract_scores` returns an error, because the
token 9999999999 overflows the `u32` parse — so the claim's unconditional
`Ok` does not hold. -/
theorem extract_scores_overflow_cex :
    (c1cexLines.filter (fun l => decide ((scoreWordTexts l).length = 3))).length = 3 ∧
    c1cexLines.all (fun l => decide (MIN_CONFIDENCE ≤ l.confidence)) = true ∧
    extract_scores c1cexLines = .error "Failed to parse score" :=
  ⟨by decide, by decide, by decide⟩

def w10lines : List OcrLine := [mkLine ["777777"] 90]

theorem extract_single_stage_cells_invariant_witness :
    extract_single_stage w10lines = .ok (777777, 0, 0) ∧
    ((777777 = 0 ∨ 100 ≤ 777777) ∧ (0 = 0 ∨ 100 ≤ (0 : Nat)) ∧
      (0 = 0 ∨ 100 ≤ (0 : Nat))) :=
  ⟨by decide,
   extract_single_stage_cells_invariant w10lines (777777, 0, 0) (by decide)⟩

/-- C6: with the producer dropped and N items still queued, the worker
receives and processes all N items in FIFO order before observing closure,
whatever each item's load/OCR/persistence outcome; it exits only once no
undelivered item remains. -/
theorem run_ocr_worker_drains_queue (env : WorkerEnv) (queue : List OcrWorkItem) :
    (run_ocr_worker env queue).map Prod.fst = queue ∧
    (run_ocr_worker env queue).length = queue.length := by
  induction queue with
  | nil => exact ⟨rfl, rfl⟩
  | cons item rest ih =>
    exact ⟨by simp only [run_ocr_worker, List.map_cons, ih.1],
      by simp only [run_ocr_worker, List.length_cons, ih.2]⟩

end Gakumas
